import Mathlib

/-
Shallow embedding of montyhall.py, a Monty Hall simulation.

Randomness: each scipy rv_discrete(...).rvs(size=1) draw is modelled by
inverse-CDF sampling: a draw consumes an explicit rational u with
0 <= u < 1 and returns the first door whose cumulative weight exceeds u.
The weight vectors the program builds always sum to 1, so u in [0, 1)
ranges over the whole distribution.

Floating point: the win-percentage computation and the Python string
formatting with .2f are idealized to exact rationals with
round-half-to-even, which is the rounding mode Python uses.
-/

/-- Inverse-CDF sample over the three doors: the model of one
rv_discrete draw over domain range(3) with weight vector w. -/
def pick (w : Fin 3 → ℚ) (u : ℚ) : Fin 3 :=
  if u < w 0 then 0 else if u < w 0 + w 1 then 1 else 2

/-- State of class Doors: one field per Python attribute.  selection,
choice_second and goat_door start as None, hence Option. -/
structure Doors where
  values : Fin 3 → ℕ
  probs : Fin 3 → ℚ
  prize_door : Fin 3
  choice_first : Fin 3
  selection : Option (List (Fin 3))
  choice_second : Option (Fin 3)
  goat_door : Option (Fin 3)

/-- The uniform weights [Fraction(1,3)]*3 assigned in Doors.__init__. -/
def uniform3 : Fin 3 → ℚ := fun _ => 1 / 3

/-- Doors.__init__: values = [0,0,0]; prize_door drawn uniformly;
values[prize_door] = 1; choice_first drawn uniformly (probs is still
the uniform vector at that point); the remaining attributes are None.
u1 and u2 are the two random draws consumed. -/
def Doors.init (u1 u2 : ℚ) : Doors :=
  let prize := pick uniform3 u1
  { values := fun d => if d = prize then 1 else 0
    probs := uniform3
    prize_door := prize
    choice_first := pick uniform3 u2
    selection := none
    choice_second := none
    goat_door := none }

/-- The weight vector Doors.reveal_goat builds: start from [.5]*3 when
prize_door == choice_first and from [1]*3 otherwise, then zero out the
prize door and the first choice.  Written pointwise: a door equal to
either gets 0, every other door keeps the branch base weight. -/
def revealProbs (p f : Fin 3) : Fin 3 → ℚ :=
  fun d => if d = p ∨ d = f then 0 else if p = f then 1 / 2 else 1

/-- Doors.reveal_goat: overwrite probs with the reveal weights and draw
goat_door from them, consuming random draw u. -/
def Doors.reveal_goat (s : Doors) (u : ℚ) : Doors :=
  let w := revealProbs s.prize_door s.choice_first
  { s with probs := w, goat_door := some (pick w u) }

/-- Doors.choose_door: strategy 0 keeps choice_first; any other strategy
builds selection = [0,1,2] minus choice_first minus goat_door and takes
its first element.  If goat_door is still None, Python raises a
TypeError at the subscript; we record that error path as
choice_second = none.  Python list.remove raises ValueError when the
element is absent while List.erase is a no-op; in the trial flow
goat_door always differs from choice_first (the reveal invariant), and
there the two coincide.  selection[0] on a possibly-empty list is
List.head?. -/
def Doors.choose_door (s : Doors) (strategy : ℕ) : Doors :=
  if strategy = 0 then
    { s with choice_second := some s.choice_first }
  else
    match s.goat_door with
    | none => { s with choice_second := none }
    | some g =>
      let sel := (([0, 1, 2] : List (Fin 3)).erase s.choice_first).erase g
      { s with selection := some sel, choice_second := sel.head? }

/-- Doors.tally_score: 1 when choice_second equals prize_door, else 0. -/
def Doors.tally_score (s : Doors) : ℕ :=
  if s.choice_second = some s.prize_door then 1 else 0

/-- Model of Python int(str) on the command-line argument: strip
surrounding spaces, accept an optional sign followed by one or more
ASCII digits, reject anything else (ValueError becomes none).
Pythonic extras such as underscores between digits or non-ASCII digits
are not modelled. -/
def pythonInt (s : String) : Option ℤ :=
  let cs := ((s.data.dropWhile (fun c => c = ' ')).reverse.dropWhile
      (fun c => c = ' ')).reverse
  match cs with
  | [] => none
  | c :: rest =>
    let digits := if c = '-' ∨ c = '+' then rest else c :: rest
    if !digits.isEmpty && digits.all (fun d => d.isDigit) then
      let n : ℕ := digits.foldl (fun acc d => acc * 10 + (d.toNat - 48)) 0
      some (if c = '-' then -(n : ℤ) else (n : ℤ))
    else none

/-- The TRIALS assignment: int(sys.argv[1]) with IndexError (no
argument) and ValueError (unparsable argument) both falling back to
1000.  A parsable zero or negative argument is NOT caught. -/
def parseTrials (arg : Option String) : ℤ :=
  match arg with
  | none => 1000
  | some s => (pythonInt s).getD 1000

/-- Python range(start, stop) as a list of integers. -/
def pythonRange (start stop : ℤ) : List ℤ :=
  List.map (fun i : ℕ => start + (i : ℤ)) (List.range (stop - start).toNat)

/-- Number of iterations of the inner trial loop `for x in range(1, TRIALS)`. -/
def trialsExecuted (T : ℤ) : ℕ := (pythonRange 1 T).length

/-- One loop body: Doors() ; reveal_goat() ; choose_door(strategy) ;
tally_score().  r packs the three random draws the trial consumes. -/
def runTrial (strategy : ℕ) (r : ℚ × ℚ × ℚ) : ℕ :=
  (((Doors.init r.1 r.2.1).reveal_goat r.2.2).choose_door strategy).tally_score

/-- The inner loop: total_score summed over x in range(1, TRIALS), each
iteration running a fresh trial on fresh random draws rand x. -/
def totalScore (strategy : ℕ) (T : ℤ) (rand : ℕ → ℚ × ℚ × ℚ) : ℕ :=
  ((pythonRange 1 T).map (fun x => runTrial strategy (rand x.toNat))).sum

/-- Round to the nearest integer, ties to even: the rounding Python
applies when formatting with .2f. -/
def roundHalfEven (q : ℚ) : ℤ :=
  let f : ℤ := ⌊q⌋
  let r : ℚ := q - (f : ℚ)
  if r < 1 / 2 then f
  else if 1 / 2 < r then f + 1
  else if f % 2 = 0 then f else f + 1

/-- Exactly two decimal digits, zero-padded. -/
def twoDigitStr (n : ℕ) : String :=
  String.mk [Nat.digitChar (n / 10 % 10), Nat.digitChar (n % 10)]

/-- Model of the Python format spec .2f applied to q: round q*100 to an
integer (ties to even) and print sign, integer part, a dot, and exactly
two fractional digits. -/
def formatTwoDec (q : ℚ) : String :=
  let n := roundHalfEven (q * 100)
  let m := n.natAbs
  (if n < 0 then "-" else "") ++ toString (m / 100) ++ "." ++ twoDigitStr (m % 100)

/-- The strategy label printed for loop index y: y == 1 prints
"switch doors", otherwise the stay label.  Char.ofNat 39 is the ASCII
apostrophe between n and t in the stay label. -/
def strategyLabel (y : ℕ) : String :=
  if y = 1 then "switch doors"
  else "don" ++ String.mk [Char.ofNat 39] ++ "t switch"

/-- One printed summary line. -/
def outputLine (y : ℕ) (T : ℤ) (wins : ℕ) (pct : String) : String :=
  "Strategy: " ++ strategyLabel y ++ " | Trials: " ++ toString T ++
    " | Wins: " ++ toString wins ++ " (" ++ pct ++ "%)"

/-- The __main__ block after TRIALS is set: for y in range(0, 2) run the
trial loop, compute win_percentage = (total/TRIALS)*100 formatted .2f,
and print one line per strategy.  When TRIALS = 0 the percentage
computation raises ZeroDivisionError before anything is printed, which
the model returns as none.  rand y x packs the random draws consumed by
trial x of strategy y. -/
def runProgram (arg : Option String) (rand : ℕ → ℕ → ℚ × ℚ × ℚ) :
    Option (List String) :=
  let T := parseTrials arg
  if T = 0 then none
  else
    some ((pythonRange 0 2).map (fun y =>
      let score := totalScore y.toNat T (rand y.toNat)
      outputLine y.toNat T score (formatTwoDec (((score : ℚ) / (T : ℚ)) * 100))))

/-- A test state for witnesses: prize door 0, first choice 0, goat door
2 already revealed (a reachable post-reveal state). -/
def testDoors : Doors :=
  { values := fun d => if d = 0 then 1 else 0
    probs := revealProbs 0 0
    prize_door := 0
    choice_first := 0
    selection := none
    choice_second := none
    goat_door := some 2 }

lemma pythonRange_length (a b : ℤ) : (pythonRange a b).length = (b - a).toNat := by
  unfold pythonRange
  rw [List.length_map, List.length_range]

lemma pick_pos (w : Fin 3 → ℚ) (u : ℚ) (h0 : 0 ≤ u)
    (h1 : u < w 0 + w 1 + w 2) : 0 < w (pick w u) := by
  unfold pick
  split_ifs with hA hB
  · linarith
  · rw [not_lt] at hA; linarith
  · rw [not_lt] at hA hB; linarith

lemma revealProbs_sum (p f : Fin 3) :
    revealProbs p f 0 + revealProbs p f 1 + revealProbs p f 2 = 1 := by
  fin_cases p <;> fin_cases f <;> simp +decide [revealProbs] <;> norm_num

lemma revealProbs_self (p f : Fin 3) :
    revealProbs p f p = 0 ∧ revealProbs p f f = 0 := by
  constructor <;> simp [revealProbs]

lemma revealProbs_eq_half (p d : Fin 3) (hd : d ≠ p) :
    revealProbs p p d = 1 / 2 := by
  simp [revealProbs, hd]

lemma fin3_exists_other : ∀ p f : Fin 3, ∃ d, d ≠ p ∧ d ≠ f := by decide

lemma revealProbs_pos_of_ne (p f d : Fin 3) (h1 : d ≠ p) (h2 : d ≠ f) :
    0 < revealProbs p f d := by
  unfold revealProbs
  rw [if_neg (by simp [h1, h2])]
  split_ifs <;> norm_num

lemma revealProbs_exists_pos (p f : Fin 3) : ∃ d, 0 < revealProbs p f d := by
  obtain ⟨d, h1, h2⟩ := fin3_exists_other p f
  exact ⟨d, revealProbs_pos_of_ne p f d h1 h2⟩

lemma fin3_unique : ∀ p f d g : Fin 3,
    p ≠ f → d ≠ p → d ≠ f → g ≠ p → g ≠ f → d = g := by decide

lemma reveal_attainable (p d : Fin 3) (hd : d ≠ p) :
    ∃ v : ℚ, 0 ≤ v ∧ v < 1 ∧ pick (revealProbs p p) v = d := by
  fin_cases p <;> fin_cases d
  · exact absurd rfl hd
  · exact ⟨0, by norm_num, by norm_num, by simp +decide [pick, revealProbs]⟩
  · exact ⟨1 / 2, by norm_num, by norm_num, by simp +decide [pick, revealProbs]⟩
  · exact ⟨0, by norm_num, by norm_num, by simp +decide [pick, revealProbs]⟩
  · exact absurd rfl hd
  · exact ⟨1 / 2, by norm_num, by norm_num, by simp +decide [pick, revealProbs]⟩
  · exact ⟨0, by norm_num, by norm_num, by simp +decide [pick, revealProbs]⟩
  · exact ⟨1 / 2, by norm_num, by norm_num, by simp +decide [pick, revealProbs]⟩
  · exact absurd rfl hd

lemma switch_head : ∀ f g : Fin 3, g ≠ f →
    ∃ d, ((([0, 1, 2] : List (Fin 3)).erase f).erase g).head? = some d ∧
      d ≠ f ∧ d ≠ g ∧ ∀ e : Fin 3, e ≠ f → e ≠ g → e = d := by decide

lemma fin3_exactly_one : ∀ p f g : Fin 3, g ≠ p → g ≠ f →
    ((if (some f : Option (Fin 3)) = some p then (1 : ℕ) else 0) = 1 ∧
     (if ((([0, 1, 2] : List (Fin 3)).erase f).erase g).head? = some p
        then (1 : ℕ) else 0) = 0) ∨
    ((if (some f : Option (Fin 3)) = some p then (1 : ℕ) else 0) = 0 ∧
     (if ((([0, 1, 2] : List (Fin 3)).erase f).erase g).head? = some p
        then (1 : ℕ) else 0) = 1) := by decide

lemma choose_door_switch (s : Doors) (g : Fin 3) (hg : s.goat_door = some g) :
    s.choose_door 1 =
      { s with
          selection := some ((([0, 1, 2] : List (Fin 3)).erase s.choice_first).erase g)
          choice_second :=
            ((([0, 1, 2] : List (Fin 3)).erase s.choice_first).erase g).head? } := by
  unfold Doors.choose_door
  rw [hg]
  rfl

/-- C1: the claim says the runner executes exactly T trials per strategy,
in particular 1000 by default.  The loop `for x in range(1, TRIALS)`
executes only T - 1 = 999 trials while the output still prints
Trials: 1000 and divides the win count by 1000, so the code is off by
one against its own reporting. -/
theorem c1_trial_count_off_by_one :
    parseTrials none = 1000 ∧ trialsExecuted (parseTrials none) = 999 ∧
    trialsExecuted (parseTrials none) ≠ 1000 := by
  have h : trialsExecuted (parseTrials none) = 999 := by
    show (pythonRange 1 1000).length = 999
    rw [pythonRange_length]
    decide
  exact ⟨rfl, h, by rw [h]; norm_num⟩

/-- C3: after reveal_goat the revealed door differs from the prize door
and from the first choice; when they coincide both other doors carry
equal weight one half and each is attainable by some draw, and when
they differ every door other than both equals the revealed one. -/
theorem c3_reveal_invariant (s : Doors) (u : ℚ) (h0 : 0 ≤ u) (h1 : u < 1) :
    ∃ g, (s.reveal_goat u).goat_door = some g ∧
      g ≠ s.prize_door ∧ g ≠ s.choice_first ∧
      (s.prize_door = s.choice_first →
        ∀ d, d ≠ s.prize_door →
          revealProbs s.prize_door s.choice_first d = 1 / 2 ∧
          ∃ v, 0 ≤ v ∧ v < 1 ∧
            pick (revealProbs s.prize_door s.choice_first) v = d) ∧
      (s.prize_door ≠ s.choice_first →
        ∀ d, d ≠ s.prize_door → d ≠ s.choice_first →
          d = pick (revealProbs s.prize_door s.choice_first) u) := by
  have hpos : 0 < revealProbs s.prize_door s.choice_first
      (pick (revealProbs s.prize_door s.choice_first) u) := by
    apply pick_pos _ _ h0
    rw [revealProbs_sum]
    exact h1
  have hgp : pick (revealProbs s.prize_door s.choice_first) u ≠ s.prize_door := by
    intro hq
    rw [hq, (revealProbs_self s.prize_door s.choice_first).1] at hpos
    exact lt_irrefl 0 hpos
  have hgf : pick (revealProbs s.prize_door s.choice_first) u ≠ s.choice_first := by
    intro hq
    rw [hq, (revealProbs_self s.prize_door s.choice_first).2] at hpos
    exact lt_irrefl 0 hpos
  refine ⟨pick (revealProbs s.prize_door s.choice_first) u, rfl, hgp, hgf, ?_, ?_⟩
  · intro hpf d hd
    constructor
    · rw [← hpf]
      exact revealProbs_eq_half s.prize_door d hd
    · rw [← hpf]
      exact reveal_attainable s.prize_door d hd
  · intro hpf d hdp hdf
    exact fin3_unique s.prize_door s.choice_first d _ hpf hdp hdf hgp hgf

/-- Witness for C3: the invariant holds at the concrete state testDoors
with draw u = 0. -/
theorem c3_reveal_invariant_witness :
    (0 : ℚ) ≤ 0 ∧ (0 : ℚ) < 1 ∧
    (∃ g, (testDoors.reveal_goat 0).goat_door = some g ∧
      g ≠ testDoors.prize_door ∧ g ≠ testDoors.choice_first ∧
      (testDoors.prize_door = testDoors.choice_first →
        ∀ d, d ≠ testDoors.prize_door →
          revealProbs testDoors.prize_door testDoors.choice_first d = 1 / 2 ∧
          ∃ v, 0 ≤ v ∧ v < 1 ∧
            pick (revealProbs testDoors.prize_door testDoors.choice_first) v = d) ∧
      (testDoors.prize_door ≠ testDoors.choice_first →
        ∀ d, d ≠ testDoors.prize_door → d ≠ testDoors.choice_first →
          d = pick (revealProbs testDoors.prize_door testDoors.choice_first) 0)) :=
  ⟨le_refl 0, by norm_num, c3_reveal_invariant testDoors 0 (le_refl 0) (by norm_num)⟩

/-- C4: choose_door with strategy 0 keeps the first choice; with
strategy 1 it returns the unique door differing from both the first
choice and the revealed door. -/
theorem c4_second_choice (s : Doors) (g : Fin 3) (hg : s.goat_door = some g)
    (hgf : g ≠ s.choice_first) :
    (s.choose_door 0).choice_second = some s.choice_first ∧
    ∃ d, (s.choose_door 1).choice_second = some d ∧
      d ≠ s.choice_first ∧ d ≠ g ∧
      ∀ e : Fin 3, e ≠ s.choice_first → e ≠ g → e = d := by
  constructor
  · rfl
  · obtain ⟨d, hd, h1, h2, h3⟩ := switch_head s.choice_first g hgf
    refine ⟨d, ?_, h1, h2, h3⟩
    rw [choose_door_switch s g hg]
    exact hd

/-- Witness for C4 at the concrete post-reveal state testDoors. -/
theorem c4_second_choice_witness :
    testDoors.goat_door = some 2 ∧ (2 : Fin 3) ≠ testDoors.choice_first ∧
    ((testDoors.choose_door 0).choice_second = some testDoors.choice_first ∧
     ∃ d, (testDoors.choose_door 1).choice_second = some d ∧
       d ≠ testDoors.choice_first ∧ d ≠ 2 ∧
       ∀ e : Fin 3, e ≠ testDoors.choice_first → e ≠ 2 → e = d) :=
  ⟨rfl, by decide, c4_second_choice testDoors 2 rfl (by decide)⟩

/-- C5: tally_score is 0 or 1, and is 1 exactly when the second choice
equals the prize door. -/
theorem c5_score_zero_one (s : Doors) :
    (s.tally_score = 0 ∨ s.tally_score = 1) ∧
    (s.tally_score = 1 ↔ s.choice_second = some s.prize_door) := by
  unfold Doors.tally_score
  by_cases h : s.choice_second = some s.prize_door <;> simp [h]

/-- C6: from any post-reveal state satisfying the reveal invariant,
exactly one of the stay score and the switch score is 1. -/
theorem c6_complementary (s : Doors) (g : Fin 3) (hg : s.goat_door = some g)
    (hgp : g ≠ s.prize_door) (hgf : g ≠ s.choice_first) :
    ((s.choose_door 0).tally_score = 1 ∧ (s.choose_door 1).tally_score = 0) ∨
    ((s.choose_door 0).tally_score = 0 ∧ (s.choose_door 1).tally_score = 1) := by
  have hc0 : (s.choose_door 0).tally_score =
      (if (some s.choice_first : Option (Fin 3)) = some s.prize_door
        then (1 : ℕ) else 0) := rfl
  have hc1 : (s.choose_door 1).tally_score =
      (if ((([0, 1, 2] : List (Fin 3)).erase s.choice_first).erase g).head? =
          some s.prize_door then (1 : ℕ) else 0) := by
    rw [choose_door_switch s g hg]
    rfl
  rw [hc0, hc1]
  exact fin3_exactly_one s.prize_door s.choice_first g hgp hgf

/-- Witness for C6 at the concrete post-reveal state testDoors. -/
theorem c6_complementary_witness :
    testDoors.goat_door = some 2 ∧
    (((testDoors.choose_door 0).tally_score = 1 ∧
      (testDoors.choose_door 1).tally_score = 0) ∨
     ((testDoors.choose_door 0).tally_score = 0 ∧
      (testDoors.choose_door 1).tally_score = 1)) :=
  ⟨rfl, c6_complementary testDoors 2 rfl (by decide) (by decide)⟩

/-- C7: every reveal weight vector has a strictly positive entry and
total weight one, so the picker precondition holds, and the picked door
always carries positive weight (a zero-weight door is never selected). -/
theorem c7_reveal_weights_positive (p f : Fin 3) (u : ℚ) (h0 : 0 ≤ u)
    (h1 : u < 1) :
    (∃ d, 0 < revealProbs p f d) ∧
    revealProbs p f 0 + revealProbs p f 1 + revealProbs p f 2 = 1 ∧
    0 < revealProbs p f (pick (revealProbs p f) u) := by
  refine ⟨revealProbs_exists_pos p f, revealProbs_sum p f, ?_⟩
  apply pick_pos _ _ h0
  rw [revealProbs_sum]
  exact h1

/-- Witness for C7 at prize door 0, first choice 0, draw u = 0. -/
theorem c7_reveal_weights_positive_witness :
    (0 : ℚ) ≤ 0 ∧ (0 : ℚ) < 1 ∧
    ((∃ d, 0 < revealProbs 0 0 d) ∧
     revealProbs 0 0 0 + revealProbs 0 0 1 + revealProbs 0 0 2 = 1 ∧
     0 < revealProbs 0 0 (pick (revealProbs 0 0) 0)) :=
  ⟨le_refl 0, by norm_num, c7_reveal_weights_positive 0 0 0 (le_refl 0) (by norm_num)⟩

/-- C9: reveal_goat and choose_door leave prize_door and choice_first
unchanged; tally_score is a pure function of the state and cannot
modify it. -/
theorem c9_prize_first_immutable (s : Doors) (u : ℚ) (strat : ℕ) :
    (s.reveal_goat u).prize_door = s.prize_door ∧
    (s.reveal_goat u).choice_first = s.choice_first ∧
    (s.choose_door strat).prize_door = s.prize_door ∧
    (s.choose_door strat).choice_first = s.choice_first := by
  have h1 : (s.choose_door strat).prize_door = s.prize_door := by
    unfold Doors.choose_door
    split
    · rfl
    · split <;> rfl
  have h2 : (s.choose_door strat).choice_first = s.choice_first := by
    unfold Doors.choose_door
    split
    · rfl
    · split <;> rfl
  exact ⟨rfl, rfl, h1, h2⟩

lemma runProgram_isSome (arg : Option String) (rand : ℕ → ℕ → ℚ × ℚ × ℚ)
    (h : parseTrials arg ≠ 0) : (runProgram arg rand).isSome = true := by
  simp only [runProgram]
  rw [if_neg h]
  rfl

/-- C2 counterexample: the argument "0" parses as the integer 0, is not
replaced by the default 1000, and the run aborts with a division by
zero instead of completing normally. -/
theorem c2_zero_arg_counterexample :
    parseTrials (some "0") = 0 ∧ parseTrials (some "0") ≠ 1000 ∧
    runProgram (some "0") (fun _ _ => (0, 0, 0)) = none := by
  refine ⟨by decide, by decide, ?_⟩
  have hp : parseTrials (some "0") = 0 := by decide
  simp [runProgram, hp]

/-- C2 amended: only an absent or unparsable argument falls back to the
default 1000 (and such runs complete normally); an argument that parses
as an integer is used as parsed, including zero and negative values,
and a zero trial count aborts with a division by zero. -/
theorem c2_default_fallback_amended :
    (∀ (arg : Option String) (rand : ℕ → ℕ → ℚ × ℚ × ℚ),
        (arg = none ∨ ∃ s, arg = some s ∧ pythonInt s = none) →
        parseTrials arg = 1000 ∧ (runProgram arg rand).isSome = true) ∧
    (∀ (s : String) (z : ℤ), pythonInt s = some z → parseTrials (some s) = z) ∧
    (∀ rand : ℕ → ℕ → ℚ × ℚ × ℚ, runProgram (some "0") rand = none) := by
  refine ⟨?_, ?_, ?_⟩
  · intro arg rand h
    have hp : parseTrials arg = 1000 := by
      rcases h with rfl | ⟨s, rfl, hs⟩
      · rfl
      · simp [parseTrials, hs]
    refine ⟨hp, runProgram_isSome arg rand ?_⟩
    rw [hp]
    norm_num
  · intro s z hz
    simp [parseTrials, hz]
  · intro rand
    have hp : parseTrials (some "0") = 0 := by decide
    simp [runProgram, hp]

/-- Witness for C2 amended at the concrete non-numeric argument "abc". -/
theorem c2_default_fallback_witness :
    parseTrials (some "abc") = 1000 ∧
    (runProgram (some "abc") (fun _ _ => (0, 0, 0))).isSome = true :=
  c2_default_fallback_amended.1 (some "abc") (fun _ _ => (0, 0, 0))
    (Or.inr ⟨"abc", rfl, by decide⟩)

lemma twoDigitStr_length (n : ℕ) : (twoDigitStr n).length = 2 := rfl

lemma formatTwoDec_decomp (q : ℚ) :
    ∃ a b : String, formatTwoDec q = a ++ "." ++ b ∧ b.length = 2 :=
  ⟨(if roundHalfEven (q * 100) < 0 then "-" else "") ++
      toString ((roundHalfEven (q * 100)).natAbs / 100),
    twoDigitStr ((roundHalfEven (q * 100)).natAbs % 100), rfl, rfl⟩

lemma runProgram_eq (arg : Option String) (rand : ℕ → ℕ → ℚ × ℚ × ℚ)
    (h : parseTrials arg ≠ 0) :
    runProgram arg rand = some
      [outputLine 0 (parseTrials arg) (totalScore 0 (parseTrials arg) (rand 0))
         (formatTwoDec (((totalScore 0 (parseTrials arg) (rand 0) : ℚ) /
            (parseTrials arg : ℚ)) * 100)),
       outputLine 1 (parseTrials arg) (totalScore 1 (parseTrials arg) (rand 1))
         (formatTwoDec (((totalScore 1 (parseTrials arg) (rand 1) : ℚ) /
            (parseTrials arg : ℚ)) * 100))] := by
  simp only [runProgram]
  rw [if_neg h]
  rfl

/-- C8: every normal run (nonzero trial count) prints exactly two lines,
the stay line before the switch line, each of the documented shape with
the correct label, and the percentage is 100 * wins / T rendered with a
dot followed by exactly two decimal digits. -/
theorem c8_output_two_lines (arg : Option String) (rand : ℕ → ℕ → ℚ × ℚ × ℚ)
    (h : parseTrials arg ≠ 0) :
    ∃ (w0 w1 : ℕ) (a0 b0 a1 b1 : String),
      runProgram arg rand = some
        ["Strategy: " ++ strategyLabel 0 ++ " | Trials: " ++
           toString (parseTrials arg) ++ " | Wins: " ++ toString w0 ++
           " (" ++ (a0 ++ "." ++ b0) ++ "%)",
         "Strategy: " ++ strategyLabel 1 ++ " | Trials: " ++
           toString (parseTrials arg) ++ " | Wins: " ++ toString w1 ++
           " (" ++ (a1 ++ "." ++ b1) ++ "%)"] ∧
      strategyLabel 0 = "don" ++ String.mk [Char.ofNat 39] ++ "t switch" ∧
      strategyLabel 1 = "switch doors" ∧
      b0.length = 2 ∧ b1.length = 2 ∧
      a0 ++ "." ++ b0 = formatTwoDec (100 * (w0 : ℚ) / (parseTrials arg : ℚ)) ∧
      a1 ++ "." ++ b1 = formatTwoDec (100 * (w1 : ℚ) / (parseTrials arg : ℚ)) := by
  obtain ⟨a0, b0, hab0, hb0⟩ := formatTwoDec_decomp
    (((totalScore 0 (parseTrials arg) (rand 0) : ℚ) / (parseTrials arg : ℚ)) * 100)
  obtain ⟨a1, b1, hab1, hb1⟩ := formatTwoDec_decomp
    (((totalScore 1 (parseTrials arg) (rand 1) : ℚ) / (parseTrials arg : ℚ)) * 100)
  refine ⟨totalScore 0 (parseTrials arg) (rand 0),
    totalScore 1 (parseTrials arg) (rand 1), a0, b0, a1, b1, ?_, rfl, rfl,
    hb0, hb1, ?_, ?_⟩
  · rw [runProgram_eq arg rand h, hab0, hab1]
    rfl
  · rw [← hab0]
    congr 1
    ring
  · rw [← hab1]
    congr 1
    ring

/-- Witness for C8 at the default run (no argument). -/
theorem c8_output_two_lines_witness :
    parseTrials none ≠ 0 ∧
    ∃ (w0 w1 : ℕ) (a0 b0 a1 b1 : String),
      runProgram none (fun _ _ => (0, 0, 0)) = some
        ["Strategy: " ++ strategyLabel 0 ++ " | Trials: " ++
           toString (parseTrials none) ++ " | Wins: " ++ toString w0 ++
           " (" ++ (a0 ++ "." ++ b0) ++ "%)",
         "Strategy: " ++ strategyLabel 1 ++ " | Trials: " ++
           toString (parseTrials none) ++ " | Wins: " ++ toString w1 ++
           " (" ++ (a1 ++ "." ++ b1) ++ "%)"] ∧
      strategyLabel 0 = "don" ++ String.mk [Char.ofNat 39] ++ "t switch" ∧
      strategyLabel 1 = "switch doors" ∧
      b0.length = 2 ∧ b1.length = 2 ∧
      a0 ++ "." ++ b0 = formatTwoDec (100 * (w0 : ℚ) / (parseTrials none : ℚ)) ∧
      a1 ++ "." ++ b1 = formatTwoDec (100 * (w1 : ℚ) / (parseTrials none : ℚ)) :=
  ⟨by decide, c8_output_two_lines none (fun _ _ => (0, 0, 0)) (by decide)⟩
